import Mathlib

/-!
Verification of the utf-utils transcoding library (include/utf-utils/utf_utils.hpp).

The library converts between UTF-8, UTF-16 and UTF-32 buffers through a
32-bit code-point intermediate form.  This file gives a shallow embedding of
the implementation: code units are natural numbers, the C++ fixed-width
integer conversions are explicit `% 2^w` operations, the signed `int8_t` and
`int16_t` intermediates are modelled on `Int` with two's-complement
conversion, and the caller's output string is an explicit `prior` list that
the functions append to (and that a failing conversion clears).

Functions that index element 0 of their input without a length guard
(`utf16_to_utf32`, `utf32_to_utf8`, `utf32_to_utf16` all read `sv[0]` for
BOM detection) return `Option`: `none` marks the out-of-bounds access that
the C++ performs on an empty buffer.  `utf8_to_utf32` guards all of its
accesses and is total.
-/

namespace UtfUtils

/-- Return statuses of the conversion functions (enum class status_e : int8_t). -/
inductive status_e where
  | trailing_without_leading
  | character_cut_off
  | non_standard_encoding
  | undefined_error
  | success
deriving DecidableEq

/-- Underlying int8_t value of each status_e constant. -/
def status_e.toInt : status_e → Int
  | .trailing_without_leading => -3
  | .character_cut_off => -2
  | .non_standard_encoding => -1
  | .undefined_error => 0
  | .success => 1

/-- Result of BOM inspection (enum class endianness_e : uint8_t). -/
inductive endianness_e where
  | unspecified
  | big_endian
  | little_endian
deriving DecidableEq

-- Constants from namespace utf::constants.
def high_surrogate_start : Nat := 0xD800
def high_surrogate_marker : Nat := 0xD800 >>> 10
def low_surrogate_start : Nat := 0xDC00
def low_surrogate_marker : Nat := 0xDC00 >>> 10
def low_surrogate_end : Nat := 0xDFFF
def supplementary_plane_offset : Nat := 0x10000
def supplementary_plane_end : Nat := 0x110000
def one_byte_boundary : Nat := 0x007F
def two_byte_boundary : Nat := 0x07FF
def three_byte_boundary : Nat := 0xFFFF
def four_byte_boundary : Nat := 0x10FFFF
def trailing_byte_marker : Nat := 0b10
def double_byte_marker : Nat := 0b110
def triple_byte_marker : Nat := 0b1110
def quadruple_byte_marker : Nat := 0b11110
def byte_order_mark : Nat := 0xFEFF
def reversed_byte_order_mark : Nat := 0xFFFE

/-- Conversion of a C++ integer value to int8_t (two's complement). -/
def toInt8 (v : Nat) : Int :=
  if v % 256 < 128 then (v % 256 : Int) else (v % 256 : Int) - 256

/-- Conversion of a C++ integer value to int16_t (two's complement). -/
def toInt16 (v : Nat) : Int :=
  if v % 65536 < 32768 then (v % 65536 : Int) else (v % 65536 : Int) - 65536

/-- is_high_surrogate: the top 6 bits of the unit equal 0b110110. -/
def is_high_surrogate (ch : Nat) : Bool :=
  decide (high_surrogate_marker = ch >>> 10)

/-- is_low_surrogate: the top 6 bits of the unit equal 0b110111. -/
def is_low_surrogate (ch : Nat) : Bool :=
  decide (low_surrogate_marker = ch >>> 10)

/-- is_correct_code_point, exactly as written in the source: the conjunction
(not disjunction) of being below the high-surrogate start and above the
low-surrogate end. -/
def is_correct_code_point (ch : Nat) : Bool :=
  decide (ch < high_surrogate_start) && decide (ch > low_surrogate_end)

/-- utf8_has_bom: the first three code units are EF BB BF.  The C++ reads
three bytes from a raw pointer; callers only invoke it on buffers of length
at least 3, which the list pattern reflects. -/
def utf8_has_bom : List Nat → Bool
  | a :: b :: c :: _ => decide (a = 0xEF) && decide (b = 0xBB) && decide (c = 0xBF)
  | _ => false

/-- utf16_bom: switch on the first unit against the two BOM constants. -/
def utf16_bom (ch : Nat) : endianness_e :=
  if ch = byte_order_mark then endianness_e.big_endian
  else if ch = reversed_byte_order_mark then endianness_e.little_endian
  else endianness_e.unspecified

/-- utf16_reverse_endianness: both bytes pass through signed int8_t
variables, so bytes at or above 0x80 are sign-extended before being
recombined; the final conversion to char16_t is modular. -/
def utf16_reverse_endianness (ch : Nat) : Nat :=
  (((toInt8 (ch % 256)) * 256 + toInt8 (ch >>> 8)) % (65536 : Int)).toNat

/-- utf32_bom: the two 16-bit halves are stored in signed int16_t variables
and then compared against the uint16_t BOM constants; both operands are
promoted to int, so the comparisons test the sign-extended half against
65279 or 65534. -/
def utf32_bom (ch : Nat) : endianness_e :=
  let first_word := toInt16 ((ch >>> 16) % 65536)
  let second_word := toInt16 (ch % 65536)
  if first_word = 0 ∧ second_word = (byte_order_mark : Int) then endianness_e.big_endian
  else if first_word = (reversed_byte_order_mark : Int) ∧ second_word = 0 then endianness_e.little_endian
  else endianness_e.unspecified

/-- utf32_reverse_endianness: all four bytes pass through signed int8_t; the
recombination is int arithmetic converted to char32_t, modelled modulo 2^32. -/
def utf32_reverse_endianness (ch : Nat) : Nat :=
  (((toInt8 (ch % 256)) * 16777216 + (toInt8 ((ch >>> 8) % 256)) * 65536 +
      (toInt8 ((ch >>> 16) % 256)) * 256 + toInt8 ((ch >>> 24) % 256)) % (4294967296 : Int)).toNat

/-- Scanning loop of utf8_to_utf32.  acc is the current contents of the
output string utf32_s; every failing exit first clears the output, hence
returns the empty list.  A leading byte of the form 11111xxx matches no
branch and is silently skipped, as in the C++ for-loop. -/
def utf8DecodeLoop : List Nat → List Nat → status_e × List Nat
  | [], acc => (status_e.success, acc)
  | b :: rest, acc =>
    if b >>> 7 = 0 then
      utf8DecodeLoop rest (acc ++ [b])
    else if b >>> 6 = trailing_byte_marker then
      (status_e.trailing_without_leading, [])
    else if b >>> 5 = double_byte_marker then
      match rest with
      | [] => (status_e.character_cut_off, [])
      | b1 :: rest1 =>
        -- first_bits = uint16_t(b << 6): the int shift keeps the 110 marker
        -- bits (the product is below 2^16, so the cast truncates nothing);
        -- the code point is char16_t(first_bits + (b1 & 0x3F)).
        utf8DecodeLoop rest1 (acc ++ [((b <<< 6) % 65536 + (b1 &&& 0x3F)) % 65536])
    else if b >>> 4 = triple_byte_marker then
      match rest with
      | [] => (status_e.character_cut_off, [])
      | b1 :: rest1 =>
        match rest1 with
        | [] => (status_e.character_cut_off, [])
        | b2 :: rest2 =>
          -- first_bits = uint16_t(b) << 12 assigned to uint16_t: here the
          -- 1110 marker bits do fall off the top of the 16-bit store.
          utf8DecodeLoop rest2
            (acc ++ [((b <<< 12) % 65536 + ((b1 &&& 0x3F) <<< 6) + (b2 &&& 0x3F)) % 65536])
    else if b >>> 3 = quadruple_byte_marker then
      match rest with
      | [] => (status_e.character_cut_off, [])
      | b1 :: rest1 =>
        match rest1 with
        | [] => (status_e.character_cut_off, [])
        | b2 :: rest2 =>
          match rest2 with
          | [] => (status_e.character_cut_off, [])
          | b3 :: rest3 =>
            -- first_bits = uint32_t(b << 18): the 11110 marker bits remain
            -- (the product is far below 2^32).
            utf8DecodeLoop rest3
              (acc ++ [((b <<< 18) + ((b1 &&& 0x3F) <<< 12) + ((b2 &&& 0x3F) <<< 6) + (b3 &&& 0x3F)) % 4294967296])
    else
      utf8DecodeLoop rest acc

/-- utf8_to_utf32.  prior is the content the caller's output string already
holds; the function appends to it (a BOM is re-emitted as the code point
0xFEFF) and clears everything on failure.  The strict flag is accepted but
never consulted, as in the source. -/
def utf8_to_utf32 (inp : List Nat) (strict : Bool) (prior : List Nat) : status_e × List Nat :=
  let has_bom := decide (3 ≤ inp.length) && utf8_has_bom inp
  utf8DecodeLoop (if has_bom then inp.drop 3 else inp)
    (if has_bom then prior ++ [byte_order_mark] else prior)

/-- Scanning loop of utf16_to_utf32.  A surrogate pair consumes two units;
a lone high surrogate is a strict-mode failure and is otherwise emitted
literally, advancing one unit. -/
def utf16DecodeLoop (reverse strict : Bool) : List Nat → List Nat → status_e × List Nat
  | [], acc => (status_e.success, acc)
  | u :: rest, acc =>
    let this_character := if reverse then utf16_reverse_endianness u else u
    if is_high_surrogate this_character then
      match rest with
      | [] =>
        if strict then (status_e.non_standard_encoding, [])
        else utf16DecodeLoop reverse strict [] (acc ++ [this_character])
      | u2 :: rest2 =>
        let next_character := if reverse then utf16_reverse_endianness u2 else u2
        if is_low_surrogate next_character then
          utf16DecodeLoop reverse strict rest2
            (acc ++ [((this_character - high_surrogate_start) <<< 10) +
              (next_character - low_surrogate_start) + supplementary_plane_offset])
        else if strict then (status_e.non_standard_encoding, [])
        else utf16DecodeLoop reverse strict (u2 :: rest2) (acc ++ [this_character])
    else
      utf16DecodeLoop reverse strict rest (acc ++ [this_character])

/-- utf16_to_utf32.  The first unit is read for BOM detection before any
length check; on the empty buffer that read is out of bounds, modelled as
none. -/
def utf16_to_utf32 (inp : List Nat) (strict : Bool) (prior : List Nat) :
    Option (status_e × List Nat) :=
  match inp with
  | [] => none
  | u0 :: _ =>
    let reverse := decide (utf16_bom u0 = endianness_e.little_endian)
    some (utf16DecodeLoop reverse strict inp prior)

/-- Encoding loop of utf32_to_utf8.  Every pushed byte goes through the
char8_t conversion, modelled by the trailing % 256; in particular the
four-byte leading marker 0b11110 is shifted left by 5 (not 3), producing
0x3C0 plus the top bits, which truncates to 0xC0 plus the top bits. -/
def utf32ToUtf8Loop (reverse strict : Bool) : List Nat → List Nat → status_e × List Nat
  | [], acc => (status_e.success, acc)
  | c :: rest, acc =>
    let cp := if reverse then utf32_reverse_endianness c else c
    if cp > four_byte_boundary then
      (status_e.undefined_error, [])
    else if cp ≤ one_byte_boundary then
      utf32ToUtf8Loop reverse strict rest (acc ++ [cp % 256])
    else if cp ≤ two_byte_boundary then
      let cp_16 := cp % 65536
      utf32ToUtf8Loop reverse strict rest
        (acc ++ [((double_byte_marker <<< 5) + (cp_16 >>> 6)) % 256,
          ((trailing_byte_marker <<< 6) + (cp_16 &&& 0x3F)) % 256])
    else if cp ≤ three_byte_boundary then
      let cp_16 := cp % 65536
      -- wrong_encoding = comply_with_standard && cp_16 < low_surrogate_start
      --                  || cp_16 > high_surrogate_start
      -- with C++ precedence grouping the && before the ||.
      if (strict && decide (cp_16 < low_surrogate_start)) ||
          decide (cp_16 > high_surrogate_start) then
        (status_e.non_standard_encoding, [])
      else
        utf32ToUtf8Loop reverse strict rest
          (acc ++ [((triple_byte_marker <<< 4) + (cp_16 >>> 12)) % 256,
            ((trailing_byte_marker <<< 6) + ((cp_16 >>> 6) &&& 0x3F)) % 256,
            ((trailing_byte_marker <<< 6) + (cp_16 &&& 0x3F)) % 256])
    else if cp ≤ four_byte_boundary then
      utf32ToUtf8Loop reverse strict rest
        (acc ++ [((quadruple_byte_marker <<< 5) + (cp >>> 18)) % 256,
          ((trailing_byte_marker <<< 6) + ((cp >>> 12) &&& 0x3F)) % 256,
          ((trailing_byte_marker <<< 6) + ((cp >>> 6) &&& 0x3F)) % 256,
          ((trailing_byte_marker <<< 6) + (cp &&& 0x3F)) % 256])
    else
      utf32ToUtf8Loop reverse strict rest acc

/-- utf32_to_utf8.  Element 0 is read for BOM detection before any length
check; the empty buffer is an out-of-bounds access, modelled as none. -/
def utf32_to_utf8 (inp : List Nat) (strict : Bool) (prior : List Nat) :
    Option (status_e × List Nat) :=
  match inp with
  | [] => none
  | c0 :: _ =>
    let reverse := decide (utf32_bom c0 = endianness_e.little_endian)
    some (utf32ToUtf8Loop reverse strict inp prior)

/-- Encoding loop of utf32_to_utf16. -/
def utf32ToUtf16Loop (reverse strict : Bool) : List Nat → List Nat → status_e × List Nat
  | [], acc => (status_e.success, acc)
  | c :: rest, acc =>
    let cp := if reverse then utf32_reverse_endianness c else c
    if cp ≥ supplementary_plane_end then
      (status_e.undefined_error, [])
    else if !is_correct_code_point cp && strict then
      (status_e.non_standard_encoding, [])
    else if cp ≥ supplementary_plane_offset then
      utf32ToUtf16Loop reverse strict rest
        (acc ++ [high_surrogate_start + ((cp - supplementary_plane_offset) >>> 10),
          low_surrogate_start + ((cp - supplementary_plane_offset) &&& 0x3FF)])
    else
      utf32ToUtf16Loop reverse strict rest (acc ++ [cp % 65536])

/-- utf32_to_utf16.  Element 0 is read for BOM detection before any length
check; the empty buffer is an out-of-bounds access, modelled as none. -/
def utf32_to_utf16 (inp : List Nat) (strict : Bool) (prior : List Nat) :
    Option (status_e × List Nat) :=
  match inp with
  | [] => none
  | c0 :: _ =>
    let reverse := decide (utf32_bom c0 = endianness_e.little_endian)
    some (utf32ToUtf16Loop reverse strict inp prior)

/-- utf8_to_utf16: decode into a fresh local code-point string, then encode
into a fresh local result string; each leg is checked with status < success.
On failure the caller's output keeps its prior content (only the locals were
cleared); on success the output is assigned (replaced by) the result. -/
def utf8_to_utf16 (inp : List Nat) (strict : Bool) (prior : List Nat) :
    Option (status_e × List Nat) :=
  let r := utf8_to_utf32 inp strict []
  if r.1.toInt < status_e.success.toInt then some (r.1, prior)
  else
    match utf32_to_utf16 r.2 strict [] with
    | none => none
    | some (s2, res) =>
      if s2.toInt < status_e.success.toInt then some (s2, prior)
      else some (status_e.success, res)

/-- utf16_to_utf8: decode into a fresh local code-point string, then encode
into a fresh local result string; same output contract as utf8_to_utf16. -/
def utf16_to_utf8 (inp : List Nat) (strict : Bool) (prior : List Nat) :
    Option (status_e × List Nat) :=
  match utf16_to_utf32 inp strict [] with
  | none => none
  | some (s, cps) =>
    if s.toInt < status_e.success.toInt then some (s, prior)
    else
      match utf32_to_utf8 cps strict [] with
      | none => none
      | some (s2, res) =>
        if s2.toInt < status_e.success.toInt then some (s2, prior)
        else some (status_e.success, res)

end UtfUtils

namespace UtfUtils

theorem toInt16_lt (v : Nat) : toInt16 v < 32768 := by
  unfold toInt16
  split <;> omega

theorem status_toInt_lt_success_iff (s : status_e) :
    s.toInt < status_e.success.toInt ↔ s ≠ status_e.success := by
  cases s <;> decide

theorem utf32_bom_ne_little (ch : Nat) : utf32_bom ch ≠ endianness_e.little_endian := by
  have h1 : toInt16 ((ch >>> 16) % 65536) < 32768 := toInt16_lt _
  simp only [utf32_bom]
  split
  · decide
  · split
    · next h2 =>
      have h3 := h2.1
      simp only [reversed_byte_order_mark] at h3
      omega
    · decide

theorem is_correct_code_point_false (ch : Nat) : is_correct_code_point ch = false := by
  simp only [is_correct_code_point, high_surrogate_start, low_surrogate_end,
    Bool.and_eq_false_iff, decide_eq_false_iff_not, not_lt]
  omega

end UtfUtils

namespace UtfUtils

/-- Claim C1: the lenient round trip fails.  Encoding the surrogate-free
code point 0xE9 to UTF-8 yields C3 A9, but decoding C3 A9 returns 0x30E9
because the two-byte decoder keeps the 110 marker bits of the leading byte;
on the UTF-16 side, the surrogate-free sequence [0xFFFE] is encoded to the
unit 0xFFFE, which the decoder then mistakes for a reversed BOM and maps
through the sign-extending byte swap to 0xFDFF. -/
theorem C1_round_trip_broken :
    utf32_to_utf8 [0xE9] false [] = some (status_e.success, [0xC3, 0xA9]) ∧
    utf8_to_utf32 [0xC3, 0xA9] false [] = (status_e.success, [0x30E9]) ∧
    utf32_to_utf16 [0xFFFE] false [] = some (status_e.success, [0xFFFE]) ∧
    utf16_to_utf32 [0xFFFE] false [] = some (status_e.success, [0xFDFF]) := by
  decide

/-- Claim C3: the two-byte decoder does not strip the 110 marker bits: the
bytes C3 A9 decode to 0x30E9 = (0xC3 << 6) + 0x29, not to 0xE9.  The
CharacterCutOff half of the claim does hold for a lone leading byte. -/
theorem C3_two_byte_decode_keeps_markers :
    utf8_to_utf32 [0xC3, 0xA9] false [] = (status_e.success, [0x30E9]) ∧
    (0x30E9 : Nat) ≠ 0xE9 ∧
    utf8_to_utf32 [0xC3] false [] = (status_e.character_cut_off, []) := by
  decide

/-- Claim C4: the four-byte decoder does not strip the 11110 marker bits:
the bytes F0 90 8D 88 decode to 0x3C10348 = (0xF0 << 18) + 0x10348, not to
0x10348.  The CharacterCutOff half of the claim does hold when a
continuation byte is missing. -/
theorem C4_four_byte_decode_keeps_markers :
    utf8_to_utf32 [0xF0, 0x90, 0x8D, 0x88] false [] = (status_e.success, [0x3C10348]) ∧
    (0x3C10348 : Nat) ≠ 0x10348 ∧
    utf8_to_utf32 [0xF0, 0x90, 0x8D] false [] = (status_e.character_cut_off, []) ∧
    utf8_to_utf32 [0xF0] false [] = (status_e.character_cut_off, []) := by
  decide

/-- Claim C5: the four-byte encoder shifts the 11110 marker left by 5
instead of 3, so after the char8_t truncation the first emitted byte is
0xC0 plus the top three payload bits, not 0xF0 plus them: 0x10348 encodes
to C0 90 8D 88 and 0x10FFFF encodes to C4 8F BF BF. -/
theorem C5_four_byte_encode_wrong_marker :
    utf32_to_utf8 [0x10348] false [] = some (status_e.success, [0xC0, 0x90, 0x8D, 0x88]) ∧
    utf32_to_utf8 [0x10FFFF] false [] = some (status_e.success, [0xC4, 0x8F, 0xBF, 0xBF]) := by
  decide

/-- Claim C6: the strict-mode surrogate test in the three-byte encoder is
the expression (strict and cp < 0xDC00) or cp > 0xD800, so strict mode
rejects every code point in the three-byte range (0x20AC included), lenient
mode rejects every code point above 0xD800 (0xE000 included), and lenient
mode accepts the surrogate 0xD800 itself. -/
theorem C6_three_byte_strict_check_broken :
    utf32_to_utf8 [0x20AC] true [] = some (status_e.non_standard_encoding, []) ∧
    utf32_to_utf8 [0xE000] false [] = some (status_e.non_standard_encoding, []) ∧
    utf32_to_utf8 [0xDFFF] false [] = some (status_e.non_standard_encoding, []) ∧
    utf32_to_utf8 [0xD800] false [] = some (status_e.success, [0xED, 0xA0, 0x80]) := by
  decide

/-- Claim C8: the byte swap stores both bytes in signed int8_t variables,
so a unit whose bytes reach 0x80 is not mapped to the claimed value
(low byte << 8) or high byte: the reversed BOM 0xFFFE is swapped to 0xFDFF,
not 0xFEFF, and a buffer starting with 0xFFFE therefore decodes its first
unit to the code point 0xFDFF.  Units with both bytes below 0x80 (0x0041)
are swapped as the claim states. -/
theorem C8_reversed_bom_swap_sign_extends :
    utf16_to_utf32 [0xFFFE, 0x0041] false [] = some (status_e.success, [0xFDFF, 0x4100]) ∧
    utf16_reverse_endianness 0xFFFE = 0xFDFF ∧
    (((0xFFFE &&& 0xFF) <<< 8) ||| (0xFFFE >>> 8) : Nat) = 0xFEFF ∧
    utf16_reverse_endianness 0x0041 = 0x4100 := by
  decide

/-- Claim C10: utf16_to_utf32, utf32_to_utf8 and utf32_to_utf16 read
element 0 of their input for BOM detection before any length check, so on
the empty buffer the access is out of bounds (none in this embedding);
utf8_to_utf32 guards its BOM probe with a length check and returns Success
on the empty buffer. -/
theorem C10_unguarded_bom_probe (strict : Bool) (prior : List Nat) :
    utf16_to_utf32 [] strict prior = none ∧
    utf32_to_utf8 [] strict prior = none ∧
    utf32_to_utf16 [] strict prior = none ∧
    utf8_to_utf32 [] strict prior = (status_e.success, prior) := by
  exact ⟨rfl, rfl, rfl, rfl⟩

end UtfUtils

namespace UtfUtils

theorem utf8DecodeLoop_fail_clears (rest acc : List Nat)
    (h : (utf8DecodeLoop rest acc).1 ≠ status_e.success) :
    (utf8DecodeLoop rest acc).2 = [] := by
  induction rest, acc using utf8DecodeLoop.induct with
  | _ => rw [utf8DecodeLoop.eq_def] at h ⊢; simp_all

theorem utf16DecodeLoop_fail_clears (reverse strict : Bool) (rest acc : List Nat)
    (h : (utf16DecodeLoop reverse strict rest acc).1 ≠ status_e.success) :
    (utf16DecodeLoop reverse strict rest acc).2 = [] := by
  induction rest, acc using utf16DecodeLoop.induct reverse strict with
  | _ => rw [utf16DecodeLoop.eq_def] at h ⊢; simp_all

set_option maxHeartbeats 1000000 in
theorem utf32ToUtf8Loop_fail_clears (reverse strict : Bool) (rest acc : List Nat)
    (h : (utf32ToUtf8Loop reverse strict rest acc).1 ≠ status_e.success) :
    (utf32ToUtf8Loop reverse strict rest acc).2 = [] := by
  induction rest, acc using utf32ToUtf8Loop.induct reverse strict with
  | _ =>
    rw [utf32ToUtf8Loop.eq_def] at h ⊢
    repeat' first
    | simp_all +zetaDelta
    | split
    all_goals omega

set_option maxHeartbeats 1000000 in
theorem utf32ToUtf16Loop_fail_clears (reverse strict : Bool) (rest acc : List Nat)
    (h : (utf32ToUtf16Loop reverse strict rest acc).1 ≠ status_e.success) :
    (utf32ToUtf16Loop reverse strict rest acc).2 = [] := by
  induction rest, acc using utf32ToUtf16Loop.induct reverse strict with
  | _ =>
    rw [utf32ToUtf16Loop.eq_def] at h ⊢
    repeat' first
    | simp_all +zetaDelta
    | split
    all_goals omega

theorem utf8DecodeLoop_fail_clears_eq (rest acc : List Nat) (s : status_e) (out : List Nat)
    (h : utf8DecodeLoop rest acc = (s, out)) (hs : s ≠ status_e.success) : out = [] := by
  have h1 : (utf8DecodeLoop rest acc).1 ≠ status_e.success := by rw [h]; exact hs
  have h2 := utf8DecodeLoop_fail_clears rest acc h1
  rw [h] at h2
  exact h2

theorem utf16DecodeLoop_fail_clears_eq (reverse strict : Bool) (rest acc : List Nat)
    (s : status_e) (out : List Nat)
    (h : utf16DecodeLoop reverse strict rest acc = (s, out)) (hs : s ≠ status_e.success) :
    out = [] := by
  have h1 : (utf16DecodeLoop reverse strict rest acc).1 ≠ status_e.success := by rw [h]; exact hs
  have h2 := utf16DecodeLoop_fail_clears reverse strict rest acc h1
  rw [h] at h2
  exact h2

theorem utf32ToUtf8Loop_fail_clears_eq (reverse strict : Bool) (rest acc : List Nat)
    (s : status_e) (out : List Nat)
    (h : utf32ToUtf8Loop reverse strict rest acc = (s, out)) (hs : s ≠ status_e.success) :
    out = [] := by
  have h1 : (utf32ToUtf8Loop reverse strict rest acc).1 ≠ status_e.success := by rw [h]; exact hs
  have h2 := utf32ToUtf8Loop_fail_clears reverse strict rest acc h1
  rw [h] at h2
  exact h2

theorem utf32ToUtf16Loop_fail_clears_eq (reverse strict : Bool) (rest acc : List Nat)
    (s : status_e) (out : List Nat)
    (h : utf32ToUtf16Loop reverse strict rest acc = (s, out)) (hs : s ≠ status_e.success) :
    out = [] := by
  have h1 : (utf32ToUtf16Loop reverse strict rest acc).1 ≠ status_e.success := by rw [h]; exact hs
  have h2 := utf32ToUtf16Loop_fail_clears reverse strict rest acc h1
  rw [h] at h2
  exact h2

end UtfUtils

namespace UtfUtils

/-- Claim C2 (amended): the four primitive entry points clear the caller's
output on every status below Success, so the output is empty on failure;
the two chained entry points (utf8_to_utf16 and utf16_to_utf8) only clear
their local buffers, so on failure the caller's output parameter retains
exactly its prior content; and a status is below Success precisely when it
is not Success, so the single comparison detects every failure. -/
theorem C2_output_contract (inp prior : List Nat) (strict : Bool) :
    (∀ s out, utf8_to_utf32 inp strict prior = (s, out) → s ≠ status_e.success → out = []) ∧
    (∀ s out, utf16_to_utf32 inp strict prior = some (s, out) → s ≠ status_e.success → out = []) ∧
    (∀ s out, utf32_to_utf8 inp strict prior = some (s, out) → s ≠ status_e.success → out = []) ∧
    (∀ s out, utf32_to_utf16 inp strict prior = some (s, out) → s ≠ status_e.success → out = []) ∧
    (∀ s out, utf8_to_utf16 inp strict prior = some (s, out) → s ≠ status_e.success → out = prior) ∧
    (∀ s out, utf16_to_utf8 inp strict prior = some (s, out) → s ≠ status_e.success → out = prior) ∧
    (∀ s : status_e, s.toInt < status_e.success.toInt ↔ s ≠ status_e.success) := by
  refine ⟨?_, ?_, ?_, ?_, ?_, ?_, status_toInt_lt_success_iff⟩
  · intro s out h hs
    simp only [utf8_to_utf32] at h
    exact utf8DecodeLoop_fail_clears_eq _ _ _ _ h hs
  · intro s out h hs
    cases inp with
    | nil => exact Option.noConfusion h
    | cons u0 tl =>
      simp only [utf16_to_utf32, Option.some.injEq] at h
      exact utf16DecodeLoop_fail_clears_eq _ _ _ _ _ _ h hs
  · intro s out h hs
    cases inp with
    | nil => exact Option.noConfusion h
    | cons c0 tl =>
      simp only [utf32_to_utf8, Option.some.injEq] at h
      exact utf32ToUtf8Loop_fail_clears_eq _ _ _ _ _ _ h hs
  · intro s out h hs
    cases inp with
    | nil => exact Option.noConfusion h
    | cons c0 tl =>
      simp only [utf32_to_utf16, Option.some.injEq] at h
      exact utf32ToUtf16Loop_fail_clears_eq _ _ _ _ _ _ h hs
  · intro s out h hs
    simp only [utf8_to_utf16] at h
    repeat' split at h
    all_goals simp_all
  · intro s out h hs
    simp only [utf16_to_utf8] at h
    repeat' split at h
    all_goals simp_all

/-- Claim C2 is false as stated: utf8_to_utf16 on the stray continuation
byte 0x82 returns a failing status, yet the caller's output parameter still
holds its prior content [0x41] instead of being empty. -/
theorem C2_claim_counterexample :
    utf8_to_utf16 [0x82] false [0x41] = some (status_e.trailing_without_leading, [0x41]) ∧
    status_e.trailing_without_leading.toInt < status_e.success.toInt ∧
    ([0x41] : List Nat) ≠ ([] : List Nat) := by
  decide

/-- Witness for C2_output_contract at the concrete failing input [0x82]
with prior output content [0x41]. -/
theorem C2_output_contract_witness :
    utf8_to_utf16 [0x82] false [0x41] = some (status_e.trailing_without_leading, [0x41]) ∧
    ([0x41] : List Nat) = [0x41] :=
  ⟨by decide,
    (C2_output_contract [0x82] [0x41] false).2.2.2.2.1 status_e.trailing_without_leading
      [0x41] (by decide) (by decide)⟩

end UtfUtils

namespace UtfUtils

/-- Claim C7: at any scan position whose (endianness-adjusted) unit is a
high surrogate, if it is the last unit or the following unit is not a low
surrogate, strict mode fails with NonStandardEncoding (clearing the
output) and lenient mode emits the surrogate value itself as a literal
code point and advances one unit; in particular the buffer holding the
single unit D800 decodes leniently to the code point 0xD800 and strictly
to NonStandardEncoding. -/
theorem C7_lone_high_surrogate (reverse strict : Bool) (acc : List Nat) (u : Nat)
    (h : is_high_surrogate (if reverse then utf16_reverse_endianness u else u) = true) :
    (utf16DecodeLoop reverse strict [u] acc =
      if strict then (status_e.non_standard_encoding, [])
      else (status_e.success, acc ++ [if reverse then utf16_reverse_endianness u else u])) ∧
    (∀ u2 rest2, is_low_surrogate (if reverse then utf16_reverse_endianness u2 else u2) = false →
      utf16DecodeLoop reverse strict (u :: u2 :: rest2) acc =
        if strict then (status_e.non_standard_encoding, [])
        else utf16DecodeLoop reverse strict (u2 :: rest2)
          (acc ++ [if reverse then utf16_reverse_endianness u else u])) ∧
    utf16_to_utf32 [0xD800] false [] = some (status_e.success, [0xD800]) ∧
    utf16_to_utf32 [0xD800] true [] = some (status_e.non_standard_encoding, []) := by
  refine ⟨?_, ?_, by decide, by decide⟩
  · cases strict <;> simp [utf16DecodeLoop, h]
  · intro u2 rest2 h2
    cases strict <;> simp [utf16DecodeLoop, h, h2]

/-- Witness for C7_lone_high_surrogate at the lone unit 0xD800 in lenient
mode without endianness reversal. -/
theorem C7_lone_high_surrogate_witness :
    utf16DecodeLoop false false [0xD800] [] = (status_e.success, [0xD800]) := by
  have h := (C7_lone_high_surrogate false false [] 0xD800 (by decide)).1
  simpa using h

/-- Claim C9: is_correct_code_point demands its argument be simultaneously
below 0xD800 and above 0xDFFF, hence is false for every argument, so in
strict mode utf32_to_utf16 rejects every input whose first-processed code
point is below 0x110000 with NonStandardEncoding and cleared output, and
never returns Success on a non-empty input. -/
theorem C9_strict_utf32_to_utf16_never_succeeds :
    (∀ ch, is_correct_code_point ch = false) ∧
    (∀ c rest prior, c < supplementary_plane_end →
      utf32_to_utf16 (c :: rest) true prior = some (status_e.non_standard_encoding, [])) ∧
    (∀ c rest prior s out, utf32_to_utf16 (c :: rest) true prior = some (s, out) →
      s ≠ status_e.success) := by
  have key1 : ∀ c rest prior, c < supplementary_plane_end →
      utf32_to_utf16 (c :: rest) true prior = some (status_e.non_standard_encoding, []) := by
    intro c rest prior hc
    have hb : decide (utf32_bom c = endianness_e.little_endian) = false :=
      decide_eq_false (utf32_bom_ne_little c)
    have h1 : ¬ c ≥ supplementary_plane_end := by omega
    simp only [utf32_to_utf16, hb, Option.some.injEq]
    rw [utf32ToUtf16Loop.eq_def]
    simp [is_correct_code_point_false, h1]
  have key2 : ∀ c rest prior, ¬ c < supplementary_plane_end →
      utf32_to_utf16 (c :: rest) true prior = some (status_e.undefined_error, []) := by
    intro c rest prior hc
    have hb : decide (utf32_bom c = endianness_e.little_endian) = false :=
      decide_eq_false (utf32_bom_ne_little c)
    have h1 : c ≥ supplementary_plane_end := by omega
    simp only [utf32_to_utf16, hb, Option.some.injEq]
    rw [utf32ToUtf16Loop.eq_def]
    simp [h1]
  refine ⟨is_correct_code_point_false, key1, ?_⟩
  intro c rest prior s out h
  by_cases hc : c < supplementary_plane_end
  · rw [key1 c rest prior hc] at h
    simp only [Option.some.injEq, Prod.mk.injEq] at h
    rw [← h.1]
    decide
  · rw [key2 c rest prior hc] at h
    simp only [Option.some.injEq, Prod.mk.injEq] at h
    rw [← h.1]
    decide

/-- Witness for C9_strict_utf32_to_utf16_never_succeeds at the plain ASCII
code point 0x41. -/
theorem C9_strict_utf32_to_utf16_never_succeeds_witness :
    utf32_to_utf16 [0x41] true [] = some (status_e.non_standard_encoding, []) :=
  (C9_strict_utf32_to_utf16_never_succeeds).2.1 0x41 [] [] (by decide)

end UtfUtils
